import Mathlib

/-!
Verification of the Figurely list-view utilities (pagination, sorting,
filtering, saved views), the tax-report loader arithmetic, and the
tenant-isolation behaviour of the list loaders.

The definitions are shallow embeddings of the TypeScript source:
`URLSearchParams` is modelled as an ordered association list with the
standard `get`/`set`/`delete` semantics, JavaScript numbers appearing in
the arithmetic claims are modelled as rationals, and `parseInt`/`Math.max`
are modelled with an explicit NaN value where NaN can arise.
-/

namespace Figurely

/-! ### URLSearchParams model -/

/-- An ordered multiset of key/value pairs, as in `URLSearchParams`. -/
abbrev Params := List (String × String)

/-- `URLSearchParams.get`: the value of the first pair with the given key. -/
def getParam (ps : Params) (k : String) : Option String :=
  (ps.find? (fun p => p.1 == k)).map (fun p => p.2)

/-- `URLSearchParams.delete`: removes every pair with the given key. -/
def removeParam (ps : Params) (k : String) : Params :=
  ps.filter (fun p => p.1 != k)

/-- `URLSearchParams.set`: replaces the first pair with the given key and
drops the remaining ones, appending at the end when the key is absent. -/
def setParam : Params → String → String → Params
  | [], k, v => [(k, v)]
  | p :: rest, k, v =>
    if p.1 = k then (k, v) :: removeParam rest k
    else p :: setParam rest k v

theorem getParam_setParam (ps : Params) (k v : String) :
    getParam (setParam ps k v) k = some v := by
  induction ps with
  | nil => simp [setParam, getParam, List.find?]
  | cons p rest ih =>
    by_cases h : p.1 = k
    · simp [setParam, h, getParam, List.find?]
    · simpa [setParam, h, getParam, List.find?] using ih

/-! ### Pagination helpers (`pagination.ts`) -/

/-- `DEFAULT_PAGE_SIZE` from `pagination.ts`. -/
def DEFAULT_PAGE_SIZE : ℤ := 20

/-- `getSupabaseRange(page, limit)`: zero-based inclusive range for
`.range(from, to)`; returns the pair `(from, to)`. -/
def getSupabaseRange (page limit : ℤ) : ℤ × ℤ :=
  let f := (page - 1) * limit
  (f, f + limit - 1)

/-- A JavaScript number restricted to the values arising from
`parseInt(·, 10)` and `Math.max`: an integer or NaN. -/
inductive JSNum where
  | nan : JSNum
  | int (n : ℤ) : JSNum
deriving DecidableEq

/-- `Math.max` on two arguments: NaN-propagating maximum. -/
def jsMax (a b : JSNum) : JSNum :=
  match a, b with
  | .nan, _ => .nan
  | _, .nan => .nan
  | .int x, .int y => .int (max x y)

/-- Value of a list of decimal digit characters. -/
def digitsVal (cs : List Char) : ℤ :=
  cs.foldl (fun a c => a * 10 + ((c.toNat : ℤ) - 48)) 0

/-- `parseInt(·, 10)` on a character list: skip leading whitespace, read an
optional sign and a maximal run of decimal digits; NaN when no digit. -/
def parseIntChars (cs : List Char) : JSNum :=
  let cs := cs.dropWhile (fun c => c.isWhitespace)
  match cs with
  | '-' :: rest =>
    let ds := rest.takeWhile (fun c => c.isDigit)
    if ds = [] then .nan else .int (-(digitsVal ds))
  | '+' :: rest =>
    let ds := rest.takeWhile (fun c => c.isDigit)
    if ds = [] then .nan else .int (digitsVal ds)
  | other =>
    let ds := other.takeWhile (fun c => c.isDigit)
    if ds = [] then .nan else .int (digitsVal ds)

/-- `parseInt(s, 10)` for a string. -/
def parseInt10 (s : String) : JSNum := parseIntChars s.data

/-- Result record of `parsePaginationParams`. -/
structure PaginationParams where
  page : JSNum
  limit : JSNum
deriving DecidableEq

/-- The string actually passed to `parseInt` for `page`:
`searchParams.get('page') || '1'` (null and the empty string fall back). -/
def effectivePageStr (ps : Params) : String :=
  match getParam ps "page" with
  | some v => if v = "" then "1" else v
  | none => "1"

/-- The string actually passed to `parseInt` for `limit`:
`searchParams.get('limit') || String(DEFAULT_PAGE_SIZE)`. -/
def effectiveLimitStr (ps : Params) : String :=
  match getParam ps "limit" with
  | some v => if v = "" then "20" else v
  | none => "20"

/-- `parsePaginationParams`: `Math.max(1, parseInt(get('page') || '1', 10))`
and `Math.max(1, parseInt(get('limit') || String(DEFAULT_PAGE_SIZE), 10))`. -/
def parsePaginationParams (searchParams : Params) : PaginationParams :=
  ⟨jsMax (.int 1) (parseInt10 (effectivePageStr searchParams)),
   jsMax (.int 1) (parseInt10 (effectiveLimitStr searchParams))⟩

/-! ### Sorting helpers (`sorting.ts`) -/

/-- The `SortOrder` union type `"asc" | "desc"`. -/
inductive SortOrder where
  | asc : SortOrder
  | desc : SortOrder
deriving DecidableEq

/-- The string carried by a `SortOrder` value. -/
def SortOrder.toStr : SortOrder → String
  | .asc => "asc"
  | .desc => "desc"

/-- The `SortParams` interface: `sortBy : string | null`, `sortOrder`. -/
structure SortParams where
  sortBy : Option String
  sortOrder : SortOrder
deriving DecidableEq

/-- `parseSortParams`: `get('sort') || defaultSortBy` for the column, then
`(get('order') as SortOrder) || defaultSortOrder` validated against
`'asc'`/`'desc'` with fallback to the default order. -/
def parseSortParams (searchParams : Params)
    (defaultSortBy : String) (defaultSortOrder : SortOrder) : SortParams :=
  let sortBy :=
    match getParam searchParams "sort" with
    | some v => if v = "" then defaultSortBy else v
    | none => defaultSortBy
  let rawOrder :=
    match getParam searchParams "order" with
    | some v => if v = "" then defaultSortOrder.toStr else v
    | none => defaultSortOrder.toStr
  if rawOrder = "asc" then ⟨some sortBy, .asc⟩
  else if rawOrder = "desc" then ⟨some sortBy, .desc⟩
  else ⟨some sortBy, defaultSortOrder⟩

/-! ### Status badge (`dashboard.clients._index.tsx`) -/

/-- The label/variant pair held in `statusConfig` and rendered as a badge. -/
structure BadgeConfig where
  label : String
  variant : String
deriving DecidableEq

/-- The `statusConfig` record literal of `getStatusBadge`. -/
def statusConfig : List (String × BadgeConfig) :=
  [("lead", ⟨"Lead", "secondary"⟩),
   ("prospect", ⟨"Prospect", "outline"⟩),
   ("active", ⟨"Active", "success"⟩),
   ("on_hold", ⟨"On Hold", "secondary"⟩),
   ("inactive", ⟨"Inactive", "destructive"⟩),
   ("archived", ⟨"Archived", "outline"⟩)]

/-- The own property names of `Object.prototype` in the JavaScript
runtime: a plain-object lookup `obj[key]` falls back to these through the
prototype chain, and each holds a truthy value (a function, or
`Object.prototype` itself for the `__proto__` accessor). -/
def objectPrototypeKeys : List String :=
  ["constructor", "hasOwnProperty", "isPrototypeOf", "propertyIsEnumerable",
   "toLocaleString", "toString", "valueOf", "__proto__",
   "__defineGetter__", "__defineSetter__", "__lookupGetter__", "__lookupSetter__"]

/-- The props passed to the rendered badge; `none` models a JavaScript
`undefined` field. -/
structure BadgeProps where
  label : Option String
  variant : Option String
deriving DecidableEq

/-- `getStatusBadge`: `statusConfig[status] || { label: 'Active', variant:
'default' }`.  The bracket lookup on the plain object literal traverses
the prototype chain: an own property yields its config; an inherited
`Object.prototype` property (e.g. `'toString'`) is a truthy value without
`label`/`variant` fields, so the `||` fallback is skipped and both props
are `undefined`; only for every other key is the lookup `undefined` and
the fallback taken. -/
def getStatusBadge (status : String) : BadgeProps :=
  match statusConfig.find? (fun p => p.1 == status) with
  | some p => ⟨some p.2.label, some p.2.variant⟩
  | none =>
    if status ∈ objectPrototypeKeys then ⟨none, none⟩
    else ⟨some "Active", some "default"⟩

/-! ### Filter helpers (`filtering.ts`) -/

/-- The `DateRangeFilter` interface (`from`/`to`, each `string | null`);
the TypeScript field names `from` and `to` are Lean keywords, so they are
spelled `fromDate`/`toDate` here. -/
structure DateRangeFilter where
  fromDate : Option String
  toDate : Option String
deriving DecidableEq

/-- The `FilterParams` interface: all fields optional. -/
structure FilterParams where
  status : Option (List String)
  category : Option (List String)
  dateRange : Option DateRangeFilter
  search : Option String
deriving DecidableEq

/-- The `ViewState` interface of `views.ts`. -/
structure ViewState where
  filters : FilterParams
  sort : SortParams
deriving DecidableEq

/-- The `string | string[] | null` union taken by `buildFilterUrl`. -/
inductive FilterValue where
  | str (s : String) : FilterValue
  | arr (vs : List String) : FilterValue
  | null : FilterValue

/-- `buildFilterUrl`: delete the key on `null`/empty array, set the
comma-joined array or the single value otherwise, then reset `page` to 1. -/
def buildFilterUrl (currentParams : Params) (filterKey : String)
    (filterValue : FilterValue) : Params :=
  let params := currentParams
  let params :=
    match filterValue with
    | .null => removeParam params filterKey
    | .arr vs =>
      if vs = [] then removeParam params filterKey
      else setParam params filterKey (String.intercalate "," vs)
    | .str v => setParam params filterKey v
  setParam params "page" "1"

/-- `clearAllFilters`: start from empty params, copy each preserved key
whose current value is truthy, then set `page` to 1. -/
def clearAllFilters (currentParams : Params) (preserveKeys : List String) :
    Params :=
  let params :=
    preserveKeys.foldl
      (fun ps k =>
        match getParam currentParams k with
        | some v => if v = "" then ps else setParam ps k v
        | none => ps)
      []
  setParam params "page" "1"

/-! ### Sort URL builder (`sorting.ts`) -/

/-- `sortBy.includes("name") || sortBy.includes("email")`. -/
def isTextColumn (sortBy : String) : Bool :=
  decide (List.IsInfix "name".data sortBy.data) ||
  decide (List.IsInfix "email".data sortBy.data)

/-- `buildSortUrl`: toggle the order when re-clicking the sorted column,
otherwise set the new column with a type-dependent default order; always
reset `page` to 1. -/
def buildSortUrl (currentParams : Params) (sortBy : String)
    (currentSortBy : Option String) (currentSortOrder : SortOrder) : Params :=
  let params := currentParams
  let params :=
    if some sortBy = currentSortBy then
      setParam params "order"
        (match currentSortOrder with
         | .asc => "desc"
         | .desc => "asc")
    else
      setParam (setParam params "sort" sortBy) "order"
        (if isTextColumn sortBy then "asc" else "desc")
  setParam params "page" "1"

/-! ### View-state URL builder (`views.ts`) -/

/-- `buildUrlFromViewState`: apply sort, status, category, date-range and
search parameters from the view state over the base params, then reset
`page` to 1.  JavaScript truthiness on the optional string fields means
`null`/absent and the empty string are both skipped. -/
def buildUrlFromViewState (state : ViewState) (baseParams : Params) : Params :=
  let params := baseParams
  let params :=
    match state.sort.sortBy with
    | some sb =>
      if sb = "" then params
      else setParam (setParam params "sort" sb) "order" state.sort.sortOrder.toStr
    | none => params
  let params :=
    match state.filters.status with
    | some vs =>
      if vs = [] then params
      else setParam params "status" (String.intercalate "," vs)
    | none => params
  let params :=
    match state.filters.category with
    | some vs =>
      if vs = [] then params
      else setParam params "category" (String.intercalate "," vs)
    | none => params
  let params :=
    match state.filters.dateRange with
    | some dr =>
      let params :=
        match dr.fromDate with
        | some f => if f = "" then params else setParam params "date_from" f
        | none => params
      match dr.toDate with
      | some t => if t = "" then params else setParam params "date_to" t
      | none => params
    | none => params
  let params :=
    match state.filters.search with
    | some q => if q = "" then params else setParam params "q" q
    | none => params
  setParam params "page" "1"

/-! ### Tax report rows and loader arithmetic
(`dashboard.tax-report.pdf.tsx`, migrations `005` and `household_settings`).
Monetary values are modelled as rationals. -/

/-- An `invoices` row, restricted to the fields the claims use. -/
structure InvoiceRow where
  user_id : String
  date : String
  status : String
  total : ℚ
deriving DecidableEq

/-- An `expenses` row, restricted to the fields the claims use.
`deductible_amount` is a generated column in the database; here it is a
plain field constrained by `ExpenseRow.generatedOk`. -/
structure ExpenseRow where
  user_id : String
  date : String
  is_tax_deductible : Bool
  total : ℚ
  business_use_percentage : ℚ
  deductible_amount : ℚ
  tax_category : Option String
deriving DecidableEq

/-- A `mileage` row.  `total` is a generated column in the database; here
it is a plain field constrained by `MileageRow.generatedOk`. -/
structure MileageRow where
  user_id : String
  date : String
  purpose : String
  miles : ℚ
  rate_per_mile : ℚ
  total : ℚ
deriving DecidableEq

/-- Postgres `numeric` rounding to an integer: half away from zero
(`round(2.5) = 3`, `round(-2.5) = -3`). -/
def roundHalfAway (q : ℚ) : ℤ :=
  if 0 ≤ q then ⌊q + 1 / 2⌋ else -⌊-q + 1 / 2⌋

/-- The assignment cast to a scale-2 `NUMERIC`/`DECIMAL(10, 2)` column:
the value rounded to two decimal places. -/
def pgRound2 (q : ℚ) : ℚ := (roundHalfAway (q * 100) : ℚ) / 100

/-- The stored value of `expenses.deductible_amount`: the generation
expression `total * (business_use_percentage / 100)` rounded by the
assignment cast to the column type `DECIMAL(10, 2)`. -/
def expenseDeductibleGen (total businessUsePercentage : ℚ) : ℚ :=
  pgRound2 (total * (businessUsePercentage / 100))

/-- The database invariant enforced by the generated column
`deductible_amount DECIMAL(10, 2) GENERATED ALWAYS AS (total *
(business_use_percentage / 100)) STORED`: the stored value is the
expression rounded to two decimals. -/
def ExpenseRow.generatedOk (e : ExpenseRow) : Prop :=
  e.deductible_amount = expenseDeductibleGen e.total e.business_use_percentage

instance (e : ExpenseRow) : Decidable e.generatedOk := by
  unfold ExpenseRow.generatedOk; infer_instance

/-- The stored value of `mileage.total`: the generation expression
`miles * rate_per_mile` rounded by the assignment cast to the column
type `DECIMAL(10, 2)`. -/
def mileageTotalGen (miles ratePerMile : ℚ) : ℚ :=
  pgRound2 (miles * ratePerMile)

/-- The database invariant enforced by the generated column
`total DECIMAL(10, 2) GENERATED ALWAYS AS (miles * rate_per_mile)
STORED`: the stored value is the product rounded to two decimals. -/
def MileageRow.generatedOk (m : MileageRow) : Prop :=
  m.total = mileageTotalGen m.miles m.rate_per_mile

instance (m : MileageRow) : Decidable m.generatedOk := by
  unfold MileageRow.generatedOk; infer_instance

/-- Evaluation rule for `pgRound2` at non-negative inputs, with the
integer scaled value supplied explicitly. -/
theorem pgRound2_eval (q : ℚ) (z : ℤ) (h0 : 0 ≤ q)
    (h1 : (z : ℚ) ≤ q * 100 + 1 / 2) (h2 : q * 100 + 1 / 2 < z + 1) :
    pgRound2 q = (z : ℚ) / 100 := by
  have hx : (0 : ℚ) ≤ q * 100 := by positivity
  have hf : ⌊q * 100 + 1 / 2⌋ = z := Int.floor_eq_iff.mpr ⟨h1, h2⟩
  unfold pgRound2 roundHalfAway
  rw [if_pos hx, hf]

/-- The `stats` record computed by the tax-report loader. -/
structure TaxStats where
  totalIncome : ℚ
  totalExpenses : ℚ
  totalMileageDeduction : ℚ
  totalDeductions : ℚ
  netProfit : ℚ
  selfEmploymentTax : ℚ
  estimatedIncomeTax : ℚ
  totalEstimatedTax : ℚ
deriving DecidableEq

/-- The arithmetic of the tax-report loader over the fetched rows, as in
`dashboard.tax-report.pdf.tsx` lines 304-335 (filters and `reduce`s). -/
def taxReportStats (invoices : List InvoiceRow) (expenses : List ExpenseRow)
    (mileage : List MileageRow) : TaxStats :=
  let totalIncome : ℚ :=
    (invoices.filter (fun inv => inv.status == "paid")).foldl
      (fun sum inv => sum + inv.total) 0
  let taxDeductibleExpenses := expenses.filter (fun e => e.is_tax_deductible)
  let totalExpenses : ℚ :=
    taxDeductibleExpenses.foldl (fun sum e => sum + e.deductible_amount) 0
  let totalMileageDeduction : ℚ := mileage.foldl (fun sum m => sum + m.total) 0
  let totalDeductions : ℚ := totalExpenses + totalMileageDeduction
  let netProfit : ℚ := totalIncome - totalDeductions
  let selfEmploymentTax : ℚ := if 0 < netProfit then netProfit * 0.153 else 0
  let estimatedIncomeTax : ℚ :=
    if 0 < netProfit then (netProfit - selfEmploymentTax / 2) * 0.22 else 0
  let totalEstimatedTax : ℚ := selfEmploymentTax + estimatedIncomeTax
  ⟨totalIncome, totalExpenses, totalMileageDeduction, totalDeductions,
   netProfit, selfEmploymentTax, estimatedIncomeTax, totalEstimatedTax⟩

theorem foldl_add_map {α : Type} (f : α → ℚ) (l : List α) (a : ℚ) :
    l.foldl (fun s x => s + f x) a = a + (l.map f).sum := by
  induction l generalizing a with
  | nil => simp
  | cons x xs ih => simp [ih, add_assoc]

/-! ### List loaders and tenant isolation
(`dashboard.clients._index.tsx` loader and the tax-report loader).
The Supabase query builder is modelled by executing the accumulated
`.eq/.in/.or/.order/.range` calls against an explicit database list:
each filter is a `List.filter`, `.order` a stable insertion sort,
`.range` a drop/take slice, and `count: 'exact'` the length of the
filtered list before slicing. -/

/-- A `clients` row, restricted to the fields the loader touches. -/
structure ClientRow where
  user_id : String
  name : String
  email : String
  phone : String
  contact_person : String
  status : String
  created_at : String
deriving DecidableEq

/-- A `saved_views` row, restricted to the fields the loader touches. -/
structure SavedViewRow where
  user_id : String
  table_name : String
  name : String
  view_state : String
  created_at : String
deriving DecidableEq

/-- Insert into a sorted list, keeping earlier elements first on ties
(stable sort step). -/
def insertLe {α : Type} (le : α → α → Bool) (x : α) : List α → List α
  | [] => [x]
  | y :: ys => if le y x then y :: insertLe le x ys else x :: y :: ys

/-- Stable insertion sort used to model `.order(column, { ascending })`. -/
def sortByLe {α : Type} (le : α → α → Bool) : List α → List α
  | [] => []
  | x :: xs => insertLe le x (sortByLe le xs)

/-- The `clientColumnMap` of `sorting.ts`. -/
def clientColumnMap : List (String × String) :=
  [("name", "name"), ("contact", "contact_person"), ("email", "email"),
   ("phone", "phone"), ("status", "status"), ("created", "created_at")]

/-- Sort key of a client row for a database column name. -/
def clientSortKey (column : String) (r : ClientRow) : String :=
  if column = "name" then r.name
  else if column = "email" then r.email
  else if column = "phone" then r.phone
  else if column = "contact_person" then r.contact_person
  else if column = "status" then r.status
  else if column = "created_at" then r.created_at
  else ""

/-- Case-insensitive substring test modelling `.ilike.%term%`. -/
def containsCI (hay needle : String) : Bool :=
  decide (List.IsInfix needle.toLower.data hay.toLower.data)

/-- The OR-of-`ilike` search built by `buildSupabaseSearchQuery` over
`name`, `email`, `phone`, `contact_person`. -/
def rowMatchesSearch (term : String) (r : ClientRow) : Bool :=
  containsCI r.name term || containsCI r.email term ||
  containsCI r.phone term || containsCI r.contact_person term

/-- The clients list loader: `.eq('user_id', uid)`, status filter, search,
`.order` via `clientColumnMap`, `.range` from `getSupabaseRange`, with
`count: 'exact'`, plus the user's saved views for the `clients` table
ordered by `created_at` descending.  The query parameters arrive already
parsed, as the loader parses them before building the query. -/
def clientsLoader (db : List ClientRow) (views : List SavedViewRow)
    (uid : String) (page limit : ℕ) (sortParams : SortParams)
    (filters : FilterParams) (query : String) :
    List ClientRow × ℕ × List SavedViewRow :=
  let base := db.filter (fun r => r.user_id == uid)
  let afterStatus :=
    match filters.status with
    | some vs => if vs = [] then base else base.filter (fun r => vs.contains r.status)
    | none => base
  let afterSearch :=
    if query = "" then afterStatus
    else afterStatus.filter (rowMatchesSearch query.trim)
  let sortCol := sortParams.sortBy.getD "created_at"
  let dbColumn :=
    ((clientColumnMap.find? (fun p => p.1 == sortCol)).map (fun p => p.2)).getD sortCol
  let sorted :=
    match sortParams.sortOrder with
    | .asc => sortByLe (fun a b => clientSortKey dbColumn a ≤ clientSortKey dbColumn b) afterSearch
    | .desc => sortByLe (fun a b => clientSortKey dbColumn b ≤ clientSortKey dbColumn a) afterSearch
  let rg := getSupabaseRange (page : ℤ) (limit : ℤ)
  let paged := (sorted.drop rg.1.toNat).take (rg.2 + 1 - rg.1).toNat
  let userViews :=
    (views.filter (fun v => v.user_id == uid)).filter (fun v => v.table_name == "clients")
  let viewsSorted := sortByLe (fun a b => b.created_at ≤ a.created_at) userViews
  (paged, afterSearch.length, viewsSorted)

/-- The tax-report loader's three fetches (`.eq('user_id', uid)` then the
`date` range) and the stats computed from them. -/
def taxReportLoader (invoices : List InvoiceRow) (expenses : List ExpenseRow)
    (mileage : List MileageRow) (uid startDate endDate : String) :
    TaxStats × List InvoiceRow × List ExpenseRow × List MileageRow :=
  let inv := ((invoices.filter (fun r => r.user_id == uid)).filter
    (fun r => startDate ≤ r.date)).filter (fun r => r.date ≤ endDate)
  let exps := ((expenses.filter (fun r => r.user_id == uid)).filter
    (fun r => startDate ≤ r.date)).filter (fun r => r.date ≤ endDate)
  let mil := ((mileage.filter (fun r => r.user_id == uid)).filter
    (fun r => startDate ≤ r.date)).filter (fun r => r.date ≤ endDate)
  (taxReportStats inv exps mil, inv, exps, mil)

/-! ### JSON model for the saved-view codec (`views.ts`)
`encodeViewState` is `JSON.stringify(state)` and `decodeViewState` is
`JSON.parse` with a catch-all default.  JSON values are modelled by `JVal`,
`JSON.stringify` by `renderJVal` (insertion-order keys, no whitespace,
standard string escaping) and `JSON.parse` by `parseJVal`, a fuel-indexed
total parser for the JSON subset that `JSON.stringify` emits (no numbers,
no inter-token whitespace, no surrogate-pair escapes; Lean strings contain
no lone surrogates, so none of these occur in encoder output). -/

/-- A JSON value.  Strings are carried as character lists. -/
inductive JVal where
  | null : JVal
  | bool (b : Bool) : JVal
  | str (s : List Char) : JVal
  | arr (elems : List JVal) : JVal
  | obj (fields : List (List Char × JVal)) : JVal

/-- Hexadecimal digit character (lowercase), as emitted by
`JSON.stringify` in `\u00xx` escapes. -/
def hexDigit (n : Nat) : Char :=
  if n < 10 then Char.ofNat (48 + n) else Char.ofNat (87 + n)

/-- The escape of one character inside a JSON string literal, following
`JSON.stringify`: quote and backslash get a backslash escape, the five
named controls use their short forms, other controls use `\u00xx`, and
everything else is emitted raw. -/
def escapeChar (c : Char) : List Char :=
  if c = '"' then ['\\', '"']
  else if c = '\\' then ['\\', '\\']
  else if c.toNat = 8 then ['\\', 'b']
  else if c.toNat = 9 then ['\\', 't']
  else if c.toNat = 10 then ['\\', 'n']
  else if c.toNat = 12 then ['\\', 'f']
  else if c.toNat = 13 then ['\\', 'r']
  else if c.toNat < 32 then
    ['\\', 'u', '0', '0', hexDigit (c.toNat / 16), hexDigit (c.toNat % 16)]
  else [c]

/-- Escape every character of a string body. -/
def escapeList : List Char → List Char
  | [] => []
  | c :: cs => escapeChar c ++ escapeList cs

/-- Render a JSON string literal with its quotes. -/
def renderString (s : List Char) : List Char :=
  '"' :: (escapeList s ++ ['"'])

mutual

/-- `JSON.stringify` of a JSON value: no whitespace, keys in order. -/
def renderJVal : JVal → List Char
  | .null => 'n' :: ['u', 'l', 'l']
  | .bool true => 't' :: ['r', 'u', 'e']
  | .bool false => 'f' :: ['a', 'l', 's', 'e']
  | .str s => renderString s
  | .arr [] => ['[', ']']
  | .arr (e :: es) => '[' :: (renderJVal e ++ renderElemsTail es ++ [']'])
  | .obj [] => [Char.ofNat 123, Char.ofNat 125]
  | .obj ((k, v) :: fs) =>
    Char.ofNat 123 ::
      (renderString k ++ ':' :: renderJVal v ++ renderFieldsTail fs ++ [Char.ofNat 125])

/-- Rendering of the remaining array elements, each preceded by a comma. -/
def renderElemsTail : List JVal → List Char
  | [] => []
  | e :: es => ',' :: (renderJVal e ++ renderElemsTail es)

/-- Rendering of the remaining object fields, each preceded by a comma. -/
def renderFieldsTail : List (List Char × JVal) → List Char
  | [] => []
  | (k, v) :: fs => ',' :: (renderString k ++ ':' :: renderJVal v ++ renderFieldsTail fs)

end

mutual

/-- Fuel bound used to run the parser over a rendered value. -/
def sizeJ : JVal → Nat
  | .null => 1
  | .bool _ => 1
  | .str _ => 1
  | .arr [] => 1
  | .arr (e :: es) => 2 + sizeJ e + sizeElems es
  | .obj [] => 1
  | .obj ((_, v) :: fs) => 2 + sizeJ v + sizeFields fs

def sizeElems : List JVal → Nat
  | [] => 0
  | e :: es => 2 + sizeJ e + sizeElems es

def sizeFields : List (List Char × JVal) → Nat
  | [] => 0
  | (_, v) :: fs => 2 + sizeJ v + sizeFields fs

end

/-- Value of one hexadecimal digit character, upper or lower case. -/
def parseHexDigit (c : Char) : Option Nat :=
  if 48 ≤ c.toNat ∧ c.toNat ≤ 57 then some (c.toNat - 48)
  else if 97 ≤ c.toNat ∧ c.toNat ≤ 102 then some (c.toNat - 87)
  else if 65 ≤ c.toNat ∧ c.toNat ≤ 70 then some (c.toNat - 55)
  else none

/-- Inverse of the short backslash escapes. -/
def unescapeChar (e : Char) : Option Char :=
  if e = '"' then some '"'
  else if e = '\\' then some '\\'
  else if e = '/' then some '/'
  else if e = 'b' then some (Char.ofNat 8)
  else if e = 't' then some (Char.ofNat 9)
  else if e = 'n' then some (Char.ofNat 10)
  else if e = 'f' then some (Char.ofNat 12)
  else if e = 'r' then some (Char.ofNat 13)
  else none

/-- Parse the body of a JSON string literal after its opening quote,
returning the decoded characters and the input after the closing quote. -/
def parseStringBody : List Char → Option (List Char × List Char)
  | [] => none
  | c :: rest =>
    if c = '"' then some ([], rest)
    else if c = '\\' then
      match rest with
      | [] => none
      | e :: rest2 =>
        if e = 'u' then
          match rest2 with
          | h1 :: h2 :: h3 :: h4 :: rest3 =>
            match parseHexDigit h1, parseHexDigit h2, parseHexDigit h3, parseHexDigit h4 with
            | some a, some b, some c2, some d =>
              let n := ((a * 16 + b) * 16 + c2) * 16 + d
              if n < 55296 then
                match parseStringBody rest3 with
                | some (s, r) => some (Char.ofNat n :: s, r)
                | none => none
              else none
            | _, _, _, _ => none
          | _ => none
        else
          match unescapeChar e with
          | some c2 =>
            match parseStringBody rest2 with
            | some (s, r) => some (c2 :: s, r)
            | none => none
          | none => none
    else
      match parseStringBody rest with
      | some (s, r) => some (c :: s, r)
      | none => none

mutual

/-- `JSON.parse` on the grammar emitted by `renderJVal`; the fuel only
bounds nesting and `fuel = length input + 1` is always sufficient. -/
def parseJVal : Nat → List Char → Option (JVal × List Char)
  | 0, _ => none
  | Nat.succ fuel, input =>
    match input with
    | [] => none
    | c :: rest =>
      if c = 'n' then
        match rest with
        | 'u' :: 'l' :: 'l' :: r => some (.null, r)
        | _ => none
      else if c = 't' then
        match rest with
        | 'r' :: 'u' :: 'e' :: r => some (.bool true, r)
        | _ => none
      else if c = 'f' then
        match rest with
        | 'a' :: 'l' :: 's' :: 'e' :: r => some (.bool false, r)
        | _ => none
      else if c = '"' then
        match parseStringBody rest with
        | some (s, r) => some (.str s, r)
        | none => none
      else if c = '[' then
        match rest with
        | [] => none
        | c2 :: r2 =>
          if c2 = ']' then some (.arr [], r2)
          else
            match parseElems fuel (c2 :: r2) with
            | some (es, r3) => some (.arr es, r3)
            | none => none
      else if c = Char.ofNat 123 then
        match rest with
        | [] => none
        | c2 :: r2 =>
          if c2 = Char.ofNat 125 then some (.obj [], r2)
          else
            match parseFields fuel (c2 :: r2) with
            | some (fs, r3) => some (.obj fs, r3)
            | none => none
      else none

/-- Parse one or more comma-separated values and the closing bracket. -/
def parseElems : Nat → List Char → Option (List JVal × List Char)
  | 0, _ => none
  | Nat.succ fuel, input =>
    match parseJVal fuel input with
    | some (v, r) =>
      match r with
      | ',' :: r2 =>
        match parseElems fuel r2 with
        | some (es, r3) => some (v :: es, r3)
        | none => none
      | ']' :: r2 => some ([v], r2)
      | _ => none
    | none => none

/-- Parse one or more comma-separated `"key":value` fields and the
closing brace. -/
def parseFields : Nat → List Char → Option (List (List Char × JVal) × List Char)
  | 0, _ => none
  | Nat.succ fuel, input =>
    match input with
    | '"' :: rest =>
      match parseStringBody rest with
      | some (k, r) =>
        match r with
        | ':' :: r2 =>
          match parseJVal fuel r2 with
          | some (v, r3) =>
            match r3 with
            | ',' :: r4 =>
              match parseFields fuel r4 with
              | some (fs, r5) => some ((k, v) :: fs, r5)
              | none => none
            | c :: r4 => if c = Char.ofNat 125 then some ([(k, v)], r4) else none
            | [] => none
          | none => none
        | _ => none
      | none => none
    | _ => none

end

theorem parseHexDigit_hexDigit : ∀ n : Nat, n < 16 → parseHexDigit (hexDigit n) = some n := by
  decide

/-- String-literal bodies round-trip through escaping. -/
theorem parseStringBody_escape (s rest : List Char) :
    parseStringBody (escapeList s ++ '"' :: rest) = some (s, rest) := by
  induction s with
  | nil =>
    show parseStringBody ([] ++ '"' :: rest) = _
    rw [List.nil_append, parseStringBody.eq_def]
    simp
  | cons c cs ih =>
    show parseStringBody ((escapeChar c ++ escapeList cs) ++ '"' :: rest) = _
    rw [List.append_assoc]
    by_cases h1 : c = '"'
    · rw [show escapeChar c = ['\\', '"'] from by simp [escapeChar, h1]]
      simp only [List.cons_append, List.nil_append]
      rw [parseStringBody.eq_def]
      simp +decide [unescapeChar, ih, h1]
    · by_cases h2 : c = '\\'
      · rw [show escapeChar c = ['\\', '\\'] from by simp [escapeChar, h1, h2]]
        simp only [List.cons_append, List.nil_append]
        rw [parseStringBody.eq_def]
        simp +decide [unescapeChar, ih, h2]
      · by_cases h3 : c.toNat = 8
        · rw [show escapeChar c = ['\\', 'b'] from by simp [escapeChar, h1, h2, h3]]
          have hc : Char.ofNat 8 = c := by rw [← h3, Char.ofNat_toNat]
          simp only [List.cons_append, List.nil_append]
          rw [parseStringBody.eq_def]
          simp +decide [unescapeChar, ih, hc]
          exact hc
        · by_cases h4 : c.toNat = 9
          · rw [show escapeChar c = ['\\', 't'] from by simp [escapeChar, h1, h2, h3, h4]]
            have hc : Char.ofNat 9 = c := by rw [← h4, Char.ofNat_toNat]
            simp only [List.cons_append, List.nil_append]
            rw [parseStringBody.eq_def]
            simp +decide [unescapeChar, ih, hc]
            exact hc
          · by_cases h5 : c.toNat = 10
            · rw [show escapeChar c = ['\\', 'n'] from by
                simp [escapeChar, h1, h2, h3, h4, h5]]
              have hc : Char.ofNat 10 = c := by rw [← h5, Char.ofNat_toNat]
              simp only [List.cons_append, List.nil_append]
              rw [parseStringBody.eq_def]
              simp +decide [unescapeChar, ih, hc]
              exact hc
            · by_cases h6 : c.toNat = 12
              · rw [show escapeChar c = ['\\', 'f'] from by
                  simp [escapeChar, h1, h2, h3, h4, h5, h6]]
                have hc : Char.ofNat 12 = c := by rw [← h6, Char.ofNat_toNat]
                simp only [List.cons_append, List.nil_append]
                rw [parseStringBody.eq_def]
                simp +decide [unescapeChar, ih, hc]
                exact hc
              · by_cases h7 : c.toNat = 13
                · rw [show escapeChar c = ['\\', 'r'] from by
                    simp [escapeChar, h1, h2, h3, h4, h5, h6, h7]]
                  have hc : Char.ofNat 13 = c := by rw [← h7, Char.ofNat_toNat]
                  simp only [List.cons_append, List.nil_append]
                  rw [parseStringBody.eq_def]
                  simp +decide [unescapeChar, ih, hc]
                  exact hc
                · by_cases h8 : c.toNat < 32
                  · rw [show escapeChar c =
                        ['\\', 'u', '0', '0', hexDigit (c.toNat / 16), hexDigit (c.toNat % 16)]
                      from by simp [escapeChar, h1, h2, h3, h4, h5, h6, h7, h8]]
                    have hhi : parseHexDigit (hexDigit (c.toNat / 16)) = some (c.toNat / 16) :=
                      parseHexDigit_hexDigit _ (by omega)
                    have hlo : parseHexDigit (hexDigit (c.toNat % 16)) = some (c.toNat % 16) :=
                      parseHexDigit_hexDigit _ (by omega)
                    have h0 : parseHexDigit '0' = some 0 := by decide
                    have hn : c.toNat / 16 * 16 + c.toNat % 16 = c.toNat := by omega
                    have hlt : c.toNat < 55296 := by omega
                    have hc : Char.ofNat c.toNat = c := Char.ofNat_toNat c
                    simp only [List.cons_append, List.nil_append]
                    rw [parseStringBody.eq_def]
                    simp +decide [ih, hhi, hlo, h0, hn, hlt, hc]
                  · rw [show escapeChar c = [c] from by
                      simp [escapeChar, h1, h2, h3, h4, h5, h6, h7, h8]]
                    simp only [List.cons_append, List.nil_append]
                    rw [parseStringBody.eq_def]
                    simp [h1, h2, ih]

/-- Every rendered value starts with a character other than `']'`. -/
theorem renderJVal_head (j : JVal) :
    ∃ c cs, renderJVal j = c :: cs ∧ c ≠ ']' := by
  cases j with
  | null => exact ⟨'n', ['u', 'l', 'l'], by simp [renderJVal], by decide⟩
  | bool b =>
    cases b with
    | true => exact ⟨'t', ['r', 'u', 'e'], by simp [renderJVal], by decide⟩
    | false => exact ⟨'f', ['a', 'l', 's', 'e'], by simp [renderJVal], by decide⟩
  | str s =>
    exact ⟨'"', escapeList s ++ ['"'], by simp [renderJVal, renderString], by decide⟩
  | arr es =>
    cases es with
    | nil => exact ⟨'[', [']'], by simp [renderJVal], by decide⟩
    | cons e es' =>
      exact ⟨'[', renderJVal e ++ renderElemsTail es' ++ [']'],
        by simp [renderJVal], by decide⟩
  | obj fs =>
    cases fs with
    | nil => exact ⟨Char.ofNat 123, [Char.ofNat 125], by simp [renderJVal], by decide⟩
    | cons f fs' =>
      obtain ⟨k, v⟩ := f
      exact ⟨Char.ofNat 123,
        renderString k ++ ':' :: renderJVal v ++ renderFieldsTail fs' ++ [Char.ofNat 125],
        by simp [renderJVal], by decide⟩

theorem sizeJ_pos (j : JVal) : 1 ≤ sizeJ j := by
  cases j with
  | null => simp [sizeJ]
  | bool b => simp [sizeJ]
  | str s => simp [sizeJ]
  | arr es =>
    cases es with
    | nil => simp [sizeJ]
    | cons e es' => simp [sizeJ]; omega
  | obj fs =>
    cases fs with
    | nil => simp [sizeJ]
    | cons f fs' =>
      obtain ⟨k, v⟩ := f
      simp [sizeJ]; omega

mutual

theorem sizeJ_le_length : ∀ j : JVal, sizeJ j + 1 ≤ (renderJVal j).length
  | .null => by simp [sizeJ, renderJVal]
  | .bool true => by simp [sizeJ, renderJVal]
  | .bool false => by simp [sizeJ, renderJVal]
  | .str s => by simp [sizeJ, renderJVal, renderString]
  | .arr [] => by simp [sizeJ, renderJVal]
  | .arr (e :: es) => by
    have h1 := sizeJ_le_length e
    have h2 := sizeElems_le_length es
    simp [sizeJ, renderJVal, List.length_append]
    omega
  | .obj [] => by simp [sizeJ, renderJVal]
  | .obj ((k, v) :: fs) => by
    have h1 := sizeJ_le_length v
    have h2 := sizeFields_le_length fs
    simp [sizeJ, renderJVal, renderString, List.length_append]
    omega

theorem sizeElems_le_length : ∀ es : List JVal, sizeElems es ≤ (renderElemsTail es).length
  | [] => by simp [sizeElems, renderElemsTail]
  | e :: es => by
    have h1 := sizeJ_le_length e
    have h2 := sizeElems_le_length es
    simp [sizeElems, renderElemsTail, List.length_append]
    omega

theorem sizeFields_le_length :
    ∀ fs : List (List Char × JVal), sizeFields fs ≤ (renderFieldsTail fs).length
  | [] => by simp [sizeFields, renderFieldsTail]
  | (k, v) :: fs => by
    have h1 := sizeJ_le_length v
    have h2 := sizeFields_le_length fs
    simp [sizeFields, renderFieldsTail, renderString, List.length_append]
    omega

end

/-- Parsing inverts rendering, for values, element lists and field lists,
given enough fuel. -/
theorem parse_render_all : ∀ fuel : Nat,
    (∀ j rest, sizeJ j ≤ fuel →
      parseJVal fuel (renderJVal j ++ rest) = some (j, rest)) ∧
    (∀ v es rest, 1 + sizeJ v + sizeElems es ≤ fuel →
      parseElems fuel (renderJVal v ++ (renderElemsTail es ++ ']' :: rest)) =
        some (v :: es, rest)) ∧
    (∀ k v fs rest, 1 + sizeJ v + sizeFields fs ≤ fuel →
      parseFields fuel
          (renderString k ++ ':' :: (renderJVal v ++ (renderFieldsTail fs ++ Char.ofNat 125 :: rest))) =
        some ((k, v) :: fs, rest)) := by
  intro fuel
  induction fuel using Nat.strong_induction_on with
  | _ fuel ih =>
    cases fuel with
    | zero =>
      refine ⟨?_, ?_, ?_⟩
      · intro j rest h
        exact absurd h (by have := sizeJ_pos j; omega)
      · intro v es rest h
        exact absurd h (by omega)
      · intro k v fs rest h
        exact absurd h (by omega)
    | succ f =>
      obtain ⟨ih1, ih2, ih3⟩ := ih f (Nat.lt_succ_self f)
      refine ⟨?_, ?_, ?_⟩
      · intro j rest h
        cases j with
        | null =>
          simp only [renderJVal, List.cons_append, List.nil_append]
          simp only [parseJVal]
          simp +decide
        | bool b =>
          cases b with
          | true =>
            simp only [renderJVal, List.cons_append, List.nil_append]
            simp only [parseJVal]
            simp +decide
          | false =>
            simp only [renderJVal, List.cons_append, List.nil_append]
            simp only [parseJVal]
            simp +decide
        | str s =>
          simp only [renderJVal, renderString, List.cons_append, List.append_assoc,
            List.singleton_append]
          simp only [parseJVal]
          simp +decide [parseStringBody_escape]
        | arr es =>
          cases es with
          | nil =>
            simp only [renderJVal, List.cons_append, List.nil_append]
            simp only [parseJVal]
            simp +decide
          | cons e es' =>
            obtain ⟨c0, cs0, he, hne⟩ := renderJVal_head e
            have hb : 1 + sizeJ e + sizeElems es' ≤ f := by
              simp [sizeJ] at h; omega
            have harg : c0 :: (cs0 ++ (renderElemsTail es' ++ ']' :: rest)) =
                renderJVal e ++ (renderElemsTail es' ++ ']' :: rest) := by
              rw [he]; simp
            have h2 := ih2 e es' rest hb
            simp only [renderJVal, List.cons_append, List.append_assoc,
              List.singleton_append, he]
            simp only [parseJVal]
            simp +decide [hne, harg, h2]
        | obj fs =>
          cases fs with
          | nil =>
            simp only [renderJVal, List.cons_append, List.nil_append]
            simp only [parseJVal]
            simp +decide
          | cons fkv fs' =>
            obtain ⟨k, v⟩ := fkv
            have hb : 1 + sizeJ v + sizeFields fs' ≤ f := by
              simp [sizeJ] at h; omega
            have h3 := ih3 k v fs' rest hb
            simp only [renderJVal, renderString, List.cons_append, List.append_assoc,
              List.singleton_append]
            simp only [parseJVal]
            simp only [renderString, List.cons_append, List.append_assoc,
              List.singleton_append, List.nil_append] at h3
            simp +decide
            rw [h3]
      · intro v es rest h
        have hv : sizeJ v ≤ f := by have := sizeJ_pos v; omega
        have h1 := ih1 v (renderElemsTail es ++ ']' :: rest) hv
        simp only [parseElems]
        rw [h1]
        cases es with
        | nil =>
          simp [renderElemsTail]
        | cons e es' =>
          have hb : 1 + sizeJ e + sizeElems es' ≤ f := by
            have := sizeJ_pos v
            simp [sizeElems] at h; omega
          have h2 := ih2 e es' rest hb
          simp only [renderElemsTail, List.cons_append, List.append_assoc]
          simp +decide [h2]
      · intro k v fs rest h
        have hv : sizeJ v ≤ f := by omega
        have h1 := ih1 v (renderFieldsTail fs ++ Char.ofNat 125 :: rest) hv
        simp only [renderString, List.cons_append, List.append_assoc,
          List.singleton_append]
        simp only [parseFields]
        simp +decide [parseStringBody_escape, h1]
        cases fs with
        | nil =>
          simp [renderFieldsTail]
        | cons fkv fs' =>
          obtain ⟨k2, v2⟩ := fkv
          have hb : 1 + sizeJ v2 + sizeFields fs' ≤ f := by
            simp [sizeFields] at h; omega
          have h3 := ih3 k2 v2 fs' rest hb
          simp only [renderFieldsTail, List.cons_append, List.append_assoc]
          simp +decide [h3]

theorem parseJVal_renderJVal (j : JVal) (rest : List Char) (fuel : Nat)
    (h : sizeJ j ≤ fuel) : parseJVal fuel (renderJVal j ++ rest) = some (j, rest) :=
  (parse_render_all fuel).1 j rest h

/-! ### ViewState as a JavaScript value -/

/-- A `string | null` field as a JSON value. -/
def optStrJ : Option String → JVal
  | some s => .str s.data
  | none => .null

/-- The JSON value of a `FilterParams` object: optional (`undefined`)
fields are omitted entirely, as `JSON.stringify` does. -/
def filtersToJVal (f : FilterParams) : JVal :=
  .obj ((match f.status with
         | some vs => [("status".data, JVal.arr (vs.map (fun v => JVal.str v.data)))]
         | none => []) ++
        (match f.category with
         | some vs => [("category".data, JVal.arr (vs.map (fun v => JVal.str v.data)))]
         | none => []) ++
        (match f.dateRange with
         | some dr => [("dateRange".data,
             JVal.obj [("from".data, optStrJ dr.fromDate), ("to".data, optStrJ dr.toDate)])]
         | none => []) ++
        (match f.search with
         | some q => [("search".data, JVal.str q.data)]
         | none => []))

/-- The JSON value of a `SortParams` object. -/
def sortToJVal (sp : SortParams) : JVal :=
  .obj [("sortBy".data, optStrJ sp.sortBy),
        ("sortOrder".data, .str sp.sortOrder.toStr.data)]

/-- The JSON value of a `ViewState` object, fields in declaration order. -/
def viewStateToJVal (s : ViewState) : JVal :=
  .obj [("filters".data, filtersToJVal s.filters), ("sort".data, sortToJVal s.sort)]

/-- Property lookup on a parsed JSON object. -/
def jGet (fs : List (List Char × JVal)) (k : String) : Option JVal :=
  (fs.find? (fun p => p.1 == k.data)).map (fun p => p.2)

/-- Reading a `string | null` field from a parsed value. -/
def jToStr : JVal → Option String
  | .str s => some (String.mk s)
  | _ => none

/-- Reading a `string[]` field from a parsed value. -/
def jToStrList : JVal → Option (List String)
  | .arr es => some (es.map (fun e =>
      match e with
      | .str s => String.mk s
      | _ => ""))
  | _ => none

/-- Reading a `DateRangeFilter` from a parsed value. -/
def jToDateRange : JVal → Option DateRangeFilter
  | .obj fs => some ⟨(jGet fs "from").bind jToStr, (jGet fs "to").bind jToStr⟩
  | _ => none

/-- Reading a `FilterParams` from a parsed value (the unchecked
`as ViewState` cast, typed). -/
def jToFilters : JVal → FilterParams
  | .obj fs =>
    ⟨(jGet fs "status").bind jToStrList, (jGet fs "category").bind jToStrList,
     (jGet fs "dateRange").bind jToDateRange, (jGet fs "search").bind jToStr⟩
  | _ => ⟨none, none, none, none⟩

/-- Reading a `SortParams` from a parsed value. -/
def jToSort : JVal → SortParams
  | .obj fs =>
    ⟨(jGet fs "sortBy").bind jToStr,
     match jGet fs "sortOrder" with
     | some (.str s) => if s = "asc".data then .asc else .desc
     | _ => .desc⟩
  | _ => ⟨none, .desc⟩

/-- Reading a `ViewState` from a parsed value. -/
def jToViewState : JVal → ViewState
  | .obj fs =>
    ⟨(match jGet fs "filters" with
      | some jf => jToFilters jf
      | none => ⟨none, none, none, none⟩),
     (match jGet fs "sort" with
      | some js => jToSort js
      | none => ⟨none, .desc⟩)⟩
  | _ => ⟨⟨none, none, none, none⟩, ⟨none, .desc⟩⟩

/-- The fallback returned by `decodeViewState` when `JSON.parse` throws:
`{ filters: {}, sort: { sortBy: null, sortOrder: 'desc' } }`. -/
def defaultViewState : ViewState :=
  ⟨⟨none, none, none, none⟩, ⟨none, .desc⟩⟩

/-- `encodeViewState`: `JSON.stringify(state)`. -/
def encodeViewState (state : ViewState) : String :=
  String.mk (renderJVal (viewStateToJVal state))

/-- `decodeViewState`: `JSON.parse` of the whole input, with the
try/catch default on failure. -/
def decodeViewState (encoded : String) : ViewState :=
  match parseJVal (encoded.data.length + 1) encoded.data with
  | some (j, []) => jToViewState j
  | _ => defaultViewState

theorem strList_round (vs : List String) :
    (vs.map (fun v => JVal.str v.data)).map (fun e =>
      match e with
      | JVal.str s => String.mk s
      | _ => "") = vs := by
  induction vs with
  | nil => rfl
  | cons v vs ih => simp only [List.map_cons] at ih ⊢; rw [ih]

theorem jToStr_optStrJ (o : Option String) : jToStr (optStrJ o) = o := by
  cases o <;> rfl

theorem map_mk_data (vs : List String) :
    vs.map (fun v => String.mk v.data) = vs := by
  induction vs with
  | nil => rfl
  | cons v vs ih => simp only [List.map_cons] at ih ⊢; rw [ih]

theorem dateRange_round (df dt : Option String) :
    jToDateRange
        (JVal.obj [(['f', 'r', 'o', 'm'], optStrJ df), (['t', 'o'], optStrJ dt)]) =
      some ⟨df, dt⟩ := by
  simp +decide [jToDateRange, jGet, List.find?, jToStr_optStrJ]

theorem filters_round (f : FilterParams) : jToFilters (filtersToJVal f) = f := by
  obtain ⟨st, cat, dr, se⟩ := f
  rcases st with _ | vs <;> rcases cat with _ | cs <;>
    rcases dr with _ | ⟨df, dt⟩ <;> rcases se with _ | q <;>
    simp +decide [jToFilters, filtersToJVal, jGet, List.find?, jToStrList,
      jToStr, strList_round, dateRange_round, Function.comp_def, map_mk_data]

theorem sort_round (sp : SortParams) : jToSort (sortToJVal sp) = sp := by
  obtain ⟨sb, so⟩ := sp
  rcases sb with _ | b <;> cases so <;>
    simp +decide [jToSort, sortToJVal, jGet, List.find?, jToStr_optStrJ,
      SortOrder.toStr]

/-- The typed reading of a parsed view state inverts the JSON encoding of
a `ViewState` value. -/
theorem jToViewState_viewStateToJVal (s : ViewState) :
    jToViewState (viewStateToJVal s) = s := by
  obtain ⟨f, sp⟩ := s
  simp +decide [jToViewState, viewStateToJVal, jGet, List.find?,
    filters_round, sort_round]

/-! ### Theorems -/

/-- C4: `getSupabaseRange(page, limit)` returns `from = (page-1)*limit` and
`to = from + limit - 1`; the inclusive range `[from, to]` has exactly
`limit` indices, and the ranges of consecutive pages are adjacent and
disjoint. -/
theorem getSupabaseRange_pagination_math (page limit : ℤ)
    (hp : 1 ≤ page) (hl : 1 ≤ limit) :
    (getSupabaseRange page limit).1 = (page - 1) * limit ∧
    (getSupabaseRange page limit).2 = (getSupabaseRange page limit).1 + limit - 1 ∧
    ((Finset.Icc (getSupabaseRange page limit).1 (getSupabaseRange page limit).2).card : ℤ)
      = limit ∧
    (getSupabaseRange (page + 1) limit).1 = (getSupabaseRange page limit).2 + 1 ∧
    Disjoint (Finset.Icc (getSupabaseRange page limit).1 (getSupabaseRange page limit).2)
      (Finset.Icc (getSupabaseRange (page + 1) limit).1
        (getSupabaseRange (page + 1) limit).2) := by
  refine ⟨rfl, rfl, ?_, ?_, ?_⟩
  · show ((Finset.Icc ((page - 1) * limit) ((page - 1) * limit + limit - 1)).card : ℤ) = limit
    rw [Int.card_Icc]
    have h1 : (page - 1) * limit + limit - 1 + 1 - (page - 1) * limit = limit := by ring
    rw [h1, Int.toNat_of_nonneg (by omega)]
  · show (page + 1 - 1) * limit = (page - 1) * limit + limit - 1 + 1
    ring
  · rw [Finset.disjoint_left]
    intro x hx hx'
    simp only [getSupabaseRange, Finset.mem_Icc] at hx hx'
    have h2 : (page + 1 - 1) * limit = (page - 1) * limit + limit := by ring
    omega

/-- Witness for C4 at page 2, limit 10. -/
theorem getSupabaseRange_pagination_math_witness :
    1 ≤ (2 : ℤ) ∧ 1 ≤ (10 : ℤ) ∧
    ((getSupabaseRange 2 10).1 = (2 - 1) * 10 ∧
     (getSupabaseRange 2 10).2 = (getSupabaseRange 2 10).1 + 10 - 1 ∧
     ((Finset.Icc (getSupabaseRange 2 10).1 (getSupabaseRange 2 10).2).card : ℤ) = 10 ∧
     (getSupabaseRange (2 + 1) 10).1 = (getSupabaseRange 2 10).2 + 1 ∧
     Disjoint (Finset.Icc (getSupabaseRange 2 10).1 (getSupabaseRange 2 10).2)
       (Finset.Icc (getSupabaseRange (2 + 1) 10).1 (getSupabaseRange (2 + 1) 10).2)) :=
  ⟨by norm_num, by norm_num,
   getSupabaseRange_pagination_math 2 10 (by norm_num) (by norm_num)⟩

/-- C7 counterexample: at the status string `'toString'` the object
lookup returns the inherited `Object.prototype.toString` function, which
is truthy, so the `|| { label: 'Active', ... }` fallback is skipped and
the badge label is `undefined`, not `'Active'`. -/
theorem getStatusBadge_proto_counterexample :
    (getStatusBadge "toString").label = none ∧
    (getStatusBadge "toString").label ≠ some "Active" := by
  refine ⟨by decide, by decide⟩

/-- C7 amended: `getStatusBadge` maps the six client lifecycle statuses to
their labels, maps every other status string that is not an inherited
`Object.prototype` property name to the label `'Active'`, and yields an
undefined label for the inherited property names. -/
theorem getStatusBadge_label_map :
    (getStatusBadge "lead").label = some "Lead" ∧
    (getStatusBadge "prospect").label = some "Prospect" ∧
    (getStatusBadge "active").label = some "Active" ∧
    (getStatusBadge "on_hold").label = some "On Hold" ∧
    (getStatusBadge "inactive").label = some "Inactive" ∧
    (getStatusBadge "archived").label = some "Archived" ∧
    ∀ s : String,
      s ∉ ["lead", "prospect", "active", "on_hold", "inactive", "archived"] →
      s ∉ objectPrototypeKeys →
      (getStatusBadge s).label = some "Active" := by
  refine ⟨rfl, rfl, rfl, rfl, rfl, rfl, ?_⟩
  intro s hs hproto
  simp only [List.mem_cons, List.not_mem_nil, or_false, not_or] at hs
  obtain ⟨h1, h2, h3, h4, h5, h6⟩ := hs
  have e1 : ("lead" == s) = false := beq_eq_false_iff_ne.mpr (Ne.symm h1)
  have e2 : ("prospect" == s) = false := beq_eq_false_iff_ne.mpr (Ne.symm h2)
  have e3 : ("active" == s) = false := beq_eq_false_iff_ne.mpr (Ne.symm h3)
  have e4 : ("on_hold" == s) = false := beq_eq_false_iff_ne.mpr (Ne.symm h4)
  have e5 : ("inactive" == s) = false := beq_eq_false_iff_ne.mpr (Ne.symm h5)
  have e6 : ("archived" == s) = false := beq_eq_false_iff_ne.mpr (Ne.symm h6)
  simp [getStatusBadge, statusConfig, List.find?, e1, e2, e3, e4, e5, e6, hproto]

/-- Witness for the amended C7's fallback clause at the status string
`"zzz"`. -/
theorem getStatusBadge_label_map_witness :
    ("zzz" : String) ∉ ["lead", "prospect", "active", "on_hold", "inactive", "archived"] ∧
    ("zzz" : String) ∉ objectPrototypeKeys ∧
    (getStatusBadge "zzz").label = some "Active" :=
  ⟨by decide, by decide,
   getStatusBadge_label_map.2.2.2.2.2.2 "zzz" (by decide) (by decide)⟩

/-- C8: `parseSortParams` returns the `sort` parameter when present and
non-empty (otherwise the supplied default column), and the `order`
parameter when it is exactly `'asc'` or `'desc'` (otherwise the supplied
default order). -/
theorem parseSortParams_spec (searchParams : Params)
    (defaultSortBy : String) (defaultSortOrder : SortOrder) :
    (parseSortParams searchParams defaultSortBy defaultSortOrder).sortBy =
      (match getParam searchParams "sort" with
       | some v => some (if v = "" then defaultSortBy else v)
       | none => some defaultSortBy) ∧
    (parseSortParams searchParams defaultSortBy defaultSortOrder).sortOrder =
      (if getParam searchParams "order" = some "asc" then SortOrder.asc
       else if getParam searchParams "order" = some "desc" then SortOrder.desc
       else defaultSortOrder) := by
  constructor
  · rcases hs : getParam searchParams "sort" with _ | v <;>
      simp only [parseSortParams, hs] <;> split_ifs <;> rfl
  · rcases h : getParam searchParams "order" with _ | w
    · cases defaultSortOrder <;> simp +decide [parseSortParams, h, SortOrder.toStr]
    · by_cases hw : w = ""
      · subst hw
        cases defaultSortOrder <;> simp +decide [parseSortParams, h, SortOrder.toStr]
      · by_cases ha : w = "asc"
        · subst ha; simp +decide [parseSortParams, h]
        · by_cases hd : w = "desc"
          · subst hd; simp +decide [parseSortParams, h]
          · simp [parseSortParams, h, hw, ha, hd]

/-- C9 counterexample: with `page=abc`, `parseInt` yields NaN and
`Math.max(1, NaN)` is NaN, so the returned page is not an integer `≥ 1`. -/
theorem parsePaginationParams_nonnumeric_nan :
    (parsePaginationParams [("page", "abc")]).page = JSNum.nan ∧
    ¬ ∃ n : ℤ, (parsePaginationParams [("page", "abc")]).page = JSNum.int n ∧ 1 ≤ n := by
  constructor
  · rfl
  · rintro ⟨n, hn, -⟩
    rw [show (parsePaginationParams [("page", "abc")]).page = JSNum.nan from rfl] at hn
    exact JSNum.noConfusion hn

/-- C9 amended: whenever `parseInt` succeeds on the effective `page` and
`limit` strings (in particular for absent or numeric parameters), both
returned values are integers `≥ 1`. -/
theorem parsePaginationParams_ge_one (ps : Params)
    (hp : parseInt10 (effectivePageStr ps) ≠ JSNum.nan)
    (hl : parseInt10 (effectiveLimitStr ps) ≠ JSNum.nan) :
    ∃ p l : ℤ, parsePaginationParams ps = ⟨JSNum.int p, JSNum.int l⟩ ∧ 1 ≤ p ∧ 1 ≤ l := by
  rcases h1 : parseInt10 (effectivePageStr ps) with _ | n
  · exact absurd h1 hp
  rcases h2 : parseInt10 (effectiveLimitStr ps) with _ | m
  · exact absurd h2 hl
  exact ⟨max 1 n, max 1 m, by simp [parsePaginationParams, h1, h2, jsMax],
    le_max_left 1 n, le_max_left 1 m⟩

/-- Witness for the amended C9 at `page=7` with the default limit. -/
theorem parsePaginationParams_ge_one_witness :
    parseInt10 (effectivePageStr [("page", "7")]) ≠ JSNum.nan ∧
    parseInt10 (effectiveLimitStr [("page", "7")]) ≠ JSNum.nan ∧
    ∃ p l : ℤ, parsePaginationParams [("page", "7")] = ⟨JSNum.int p, JSNum.int l⟩ ∧
      1 ≤ p ∧ 1 ≤ l :=
  ⟨by decide, by decide,
   parsePaginationParams_ge_one [("page", "7")] (by decide) (by decide)⟩

/-- C10: each of the four URL-building helpers sets `page` to `'1'` in the
query string it returns. -/
theorem urlBuilders_reset_page (currentParams baseParams : Params)
    (filterKey : String) (filterValue : FilterValue) (sortBy : String)
    (currentSortBy : Option String) (currentSortOrder : SortOrder)
    (state : ViewState) (preserveKeys : List String) :
    getParam (buildFilterUrl currentParams filterKey filterValue) "page" = some "1" ∧
    getParam (buildSortUrl currentParams sortBy currentSortBy currentSortOrder) "page"
      = some "1" ∧
    getParam (buildUrlFromViewState state baseParams) "page" = some "1" ∧
    getParam (clearAllFilters currentParams preserveKeys) "page" = some "1" := by
  refine ⟨?_, ?_, ?_, ?_⟩
  · exact getParam_setParam _ "page" "1"
  · exact getParam_setParam _ "page" "1"
  · exact getParam_setParam _ "page" "1"
  · exact getParam_setParam _ "page" "1"

/-- C1: the tax-report loader computes totalIncome as the sum of `total`
over paid invoices, totalExpenses as the sum of `deductible_amount` over
tax-deductible expenses, totalMileageDeduction as the sum of mileage
`total`, and derives deductions, net profit and the estimated taxes by the
stated fixed-rate formulas. -/
theorem taxReportStats_spec (invoices : List InvoiceRow)
    (expenses : List ExpenseRow) (mileage : List MileageRow) :
    (taxReportStats invoices expenses mileage).totalIncome =
      ((invoices.filter (fun inv => inv.status == "paid")).map
        (fun inv => inv.total)).sum ∧
    (taxReportStats invoices expenses mileage).totalExpenses =
      ((expenses.filter (fun e => e.is_tax_deductible)).map
        (fun e => e.deductible_amount)).sum ∧
    (taxReportStats invoices expenses mileage).totalMileageDeduction =
      (mileage.map (fun m => m.total)).sum ∧
    (taxReportStats invoices expenses mileage).totalDeductions =
      (taxReportStats invoices expenses mileage).totalExpenses +
        (taxReportStats invoices expenses mileage).totalMileageDeduction ∧
    (taxReportStats invoices expenses mileage).netProfit =
      (taxReportStats invoices expenses mileage).totalIncome -
        (taxReportStats invoices expenses mileage).totalDeductions ∧
    (taxReportStats invoices expenses mileage).selfEmploymentTax =
      (if 0 < (taxReportStats invoices expenses mileage).netProfit then
        0.153 * (taxReportStats invoices expenses mileage).netProfit else 0) ∧
    (taxReportStats invoices expenses mileage).estimatedIncomeTax =
      (if 0 < (taxReportStats invoices expenses mileage).netProfit then
        0.22 * ((taxReportStats invoices expenses mileage).netProfit -
          (taxReportStats invoices expenses mileage).selfEmploymentTax / 2) else 0) ∧
    (taxReportStats invoices expenses mileage).totalEstimatedTax =
      (taxReportStats invoices expenses mileage).selfEmploymentTax +
        (taxReportStats invoices expenses mileage).estimatedIncomeTax := by
  refine ⟨?_, ?_, ?_, ?_, ?_, ?_, ?_, ?_⟩ <;>
    simp only [taxReportStats]
  · rw [foldl_add_map, zero_add]
  · rw [foldl_add_map, zero_add]
  · rw [foldl_add_map, zero_add]
  · split_ifs with h
    · exact mul_comm _ _
    · rfl
  · split_ifs with h
    · exact mul_comm _ _
    · rfl

/-- C2 counterexample: the column type `DECIMAL(10, 2)` rounds the stored
value, so a 1.00 expense at 33.33% business use stores 0.33, not the
exact product 0.3333; the claimed exact equality fails at that row. -/
theorem expense_deductible_exact_counterexample :
    (⟨"u", "2025-01-01", true, 1, 3333/100, 33/100, none⟩ : ExpenseRow).generatedOk ∧
    (⟨"u", "2025-01-01", true, 1, 3333/100, 33/100, none⟩ : ExpenseRow).deductible_amount ≠
      (⟨"u", "2025-01-01", true, 1, 3333/100, 33/100, none⟩ : ExpenseRow).total *
        (⟨"u", "2025-01-01", true, 1, 3333/100, 33/100, none⟩ : ExpenseRow).business_use_percentage
          / 100 := by
  constructor
  · show (33/100 : ℚ) = expenseDeductibleGen 1 (3333/100)
    unfold expenseDeductibleGen
    rw [pgRound2_eval (1 * ((3333 : ℚ)/100 / 100)) 33 (by norm_num) (by norm_num)
      (by norm_num)]
    norm_num
  · show (33/100 : ℚ) ≠ 1 * ((3333 : ℚ)/100) / 100
    norm_num

/-- C2 amended: under the generated-column invariant, every expense row's
deductible amount equals its total times `business_use_percentage / 100`,
rounded to two decimals by the `DECIMAL(10, 2)` column type. -/
theorem expense_deductible_amount_spec (e : ExpenseRow)
    (h : e.generatedOk) :
    e.deductible_amount = pgRound2 (e.total * e.business_use_percentage / 100) := by
  rw [h]
  unfold expenseDeductibleGen
  rw [mul_div_assoc]

/-- Witness for the amended C2 at total 1, business use 33.33%
(stored deductible amount 0.33). -/
theorem expense_deductible_amount_spec_witness :
    (⟨"u", "2025-01-01", true, 1, 3333/100, 33/100, none⟩ : ExpenseRow).generatedOk ∧
    (⟨"u", "2025-01-01", true, 1, 3333/100, 33/100, none⟩ : ExpenseRow).deductible_amount =
      pgRound2 ((⟨"u", "2025-01-01", true, 1, 3333/100, 33/100, none⟩ : ExpenseRow).total *
        (⟨"u", "2025-01-01", true, 1, 3333/100, 33/100, none⟩ : ExpenseRow).business_use_percentage
          / 100) := by
  have hg : (⟨"u", "2025-01-01", true, 1, 3333/100, 33/100, none⟩ : ExpenseRow).generatedOk := by
    show (33/100 : ℚ) = expenseDeductibleGen 1 (3333/100)
    unfold expenseDeductibleGen
    rw [pgRound2_eval (1 * ((3333 : ℚ)/100 / 100)) 33 (by norm_num) (by norm_num)
      (by norm_num)]
    norm_num
  exact ⟨hg,
    expense_deductible_amount_spec ⟨"u", "2025-01-01", true, 1, 3333/100, 33/100, none⟩ hg⟩

/-- C3 counterexample: `mileage.total` is `DECIMAL(10, 2)`, so 10.25 miles
at 0.67 per mile stores 6.87, not the exact product 6.8675, and the
loader's total mileage deduction differs from the sum of the exact
per-record products. -/
theorem mileage_deduction_exact_counterexample :
    (⟨"u", "2025-01-02", "client visit", 41/4, 67/100, 687/100⟩ : MileageRow).generatedOk ∧
    (⟨"u", "2025-01-02", "client visit", 41/4, 67/100, 687/100⟩ : MileageRow).total ≠
      (⟨"u", "2025-01-02", "client visit", 41/4, 67/100, 687/100⟩ : MileageRow).miles *
        (⟨"u", "2025-01-02", "client visit", 41/4, 67/100, 687/100⟩ : MileageRow).rate_per_mile ∧
    (taxReportStats [] []
        [⟨"u", "2025-01-02", "client visit", 41/4, 67/100, 687/100⟩]).totalMileageDeduction ≠
      ([(⟨"u", "2025-01-02", "client visit", 41/4, 67/100, 687/100⟩ : MileageRow)].map
        (fun m => m.miles * m.rate_per_mile)).sum := by
  refine ⟨?_, ?_, ?_⟩
  · show (687/100 : ℚ) = mileageTotalGen (41/4) (67/100)
    unfold mileageTotalGen
    rw [pgRound2_eval ((41 : ℚ)/4 * (67/100)) 687 (by norm_num) (by norm_num) (by norm_num)]
    norm_num
  · show (687/100 : ℚ) ≠ (41 : ℚ)/4 * (67/100)
    norm_num
  · show ((0 : ℚ) + 687/100) ≠ _
    simp only [List.map_cons, List.map_nil, List.sum_cons, List.sum_nil]
    norm_num

/-- C3 amended: under the generated-column invariant, each mileage
record's stored deduction is `miles * rate_per_mile` rounded to two
decimals by the `DECIMAL(10, 2)` column type, and the loader's total
mileage deduction is the sum of these rounded per-record deductions. -/
theorem mileage_deduction_spec (invoices : List InvoiceRow)
    (expenses : List ExpenseRow) (mileage : List MileageRow)
    (h : ∀ m ∈ mileage, m.generatedOk) :
    (∀ m ∈ mileage, m.total = pgRound2 (m.miles * m.rate_per_mile)) ∧
    (taxReportStats invoices expenses mileage).totalMileageDeduction =
      (mileage.map (fun m => pgRound2 (m.miles * m.rate_per_mile))).sum := by
  have hall : ∀ m ∈ mileage, m.total = pgRound2 (m.miles * m.rate_per_mile) := by
    intro m hm
    rw [h m hm]
    rfl
  refine ⟨hall, ?_⟩
  show mileage.foldl (fun sum m => sum + m.total) 0 = _
  rw [foldl_add_map, zero_add]
  congr 1
  exact List.map_congr_left fun m hm => hall m hm

/-- Witness for the amended C3 with one concrete record: 10.25 miles at
0.67 per mile, stored deduction 6.87. -/
theorem mileage_deduction_spec_witness :
    (∀ m ∈ [(⟨"u", "2025-01-02", "client visit", 41/4, 67/100, 687/100⟩ : MileageRow)],
      m.generatedOk) ∧
    ((∀ m ∈ [(⟨"u", "2025-01-02", "client visit", 41/4, 67/100, 687/100⟩ : MileageRow)],
        m.total = pgRound2 (m.miles * m.rate_per_mile)) ∧
      (taxReportStats [] []
        [(⟨"u", "2025-01-02", "client visit", 41/4, 67/100, 687/100⟩ : MileageRow)]).totalMileageDeduction =
        ([(⟨"u", "2025-01-02", "client visit", 41/4, 67/100, 687/100⟩ : MileageRow)].map
          (fun m => pgRound2 (m.miles * m.rate_per_mile))).sum) := by
  have hg : ∀ m ∈ [(⟨"u", "2025-01-02", "client visit", 41/4, 67/100, 687/100⟩ : MileageRow)],
      m.generatedOk := by
    intro m hm
    simp only [List.mem_singleton] at hm
    subst hm
    show (687/100 : ℚ) = mileageTotalGen (41/4) (67/100)
    unfold mileageTotalGen
    rw [pgRound2_eval ((41 : ℚ)/4 * (67/100)) 687 (by norm_num) (by norm_num) (by norm_num)]
    norm_num
  exact ⟨hg,
    mileage_deduction_spec [] [] [⟨"u", "2025-01-02", "client visit", 41/4, 67/100, 687/100⟩] hg⟩

/-- C5: two-run noninterference for tenant isolation.  Both modelled list
loaders (clients list and tax report) restrict every fetch to rows whose
`user_id` equals the session user's id, so any two database states that
agree on the requesting user's rows produce identical response data;
rows owned by other users never influence the result. -/
theorem loaders_tenant_noninterference
    (db₁ db₂ : List ClientRow) (views₁ views₂ : List SavedViewRow)
    (inv₁ inv₂ : List InvoiceRow) (exp₁ exp₂ : List ExpenseRow)
    (mil₁ mil₂ : List MileageRow) (uid : String)
    (page limit : ℕ) (sp : SortParams) (fp : FilterParams) (q : String)
    (startDate endDate : String)
    (hdb : db₁.filter (fun r => r.user_id == uid) = db₂.filter (fun r => r.user_id == uid))
    (hv : views₁.filter (fun v => v.user_id == uid) = views₂.filter (fun v => v.user_id == uid))
    (hi : inv₁.filter (fun r => r.user_id == uid) = inv₂.filter (fun r => r.user_id == uid))
    (he : exp₁.filter (fun r => r.user_id == uid) = exp₂.filter (fun r => r.user_id == uid))
    (hm : mil₁.filter (fun r => r.user_id == uid) = mil₂.filter (fun r => r.user_id == uid)) :
    clientsLoader db₁ views₁ uid page limit sp fp q =
      clientsLoader db₂ views₂ uid page limit sp fp q ∧
    taxReportLoader inv₁ exp₁ mil₁ uid startDate endDate =
      taxReportLoader inv₂ exp₂ mil₂ uid startDate endDate := by
  constructor
  · simp only [clientsLoader, hdb, hv]
  · simp only [taxReportLoader, hi, he, hm]

/-- Witness for C5: two stores that agree on user `u1` but differ in a
row owned by `u2`. -/
theorem loaders_tenant_noninterference_witness :
    ([(⟨"u1", "Alice", "a@x.io", "1", "Al", "active", "2025-01-01"⟩ : ClientRow),
      ⟨"u2", "Bob", "b@x.io", "2", "Bo", "lead", "2025-01-02"⟩].filter
        (fun r => r.user_id == "u1") =
      [(⟨"u1", "Alice", "a@x.io", "1", "Al", "active", "2025-01-01"⟩ : ClientRow)].filter
        (fun r => r.user_id == "u1")) ∧
    clientsLoader
        [⟨"u1", "Alice", "a@x.io", "1", "Al", "active", "2025-01-01"⟩,
         ⟨"u2", "Bob", "b@x.io", "2", "Bo", "lead", "2025-01-02"⟩]
        [] "u1" 1 20 ⟨none, .desc⟩ ⟨none, none, none, none⟩ "" =
      clientsLoader
        [⟨"u1", "Alice", "a@x.io", "1", "Al", "active", "2025-01-01"⟩]
        [] "u1" 1 20 ⟨none, .desc⟩ ⟨none, none, none, none⟩ "" ∧
    taxReportLoader
        [(⟨"u1", "2025-03-01", "paid", 100⟩ : InvoiceRow),
         ⟨"u2", "2025-03-02", "paid", 999⟩]
        [] [] "u1" "2025-01-01" "2025-12-31" =
      taxReportLoader [⟨"u1", "2025-03-01", "paid", 100⟩]
        [] [] "u1" "2025-01-01" "2025-12-31" := by
  refine ⟨by decide, ?_, ?_⟩
  · exact (loaders_tenant_noninterference
      [⟨"u1", "Alice", "a@x.io", "1", "Al", "active", "2025-01-01"⟩,
       ⟨"u2", "Bob", "b@x.io", "2", "Bo", "lead", "2025-01-02"⟩]
      [⟨"u1", "Alice", "a@x.io", "1", "Al", "active", "2025-01-01"⟩]
      [] [] [⟨"u1", "2025-03-01", "paid", 100⟩, ⟨"u2", "2025-03-02", "paid", 999⟩]
      [⟨"u1", "2025-03-01", "paid", 100⟩] [] [] [] [] "u1" 1 20
      ⟨none, .desc⟩ ⟨none, none, none, none⟩ "" "2025-01-01" "2025-12-31"
      (by decide) (by decide) (by decide) (by decide) (by decide)).1
  · exact (loaders_tenant_noninterference
      [⟨"u1", "Alice", "a@x.io", "1", "Al", "active", "2025-01-01"⟩,
       ⟨"u2", "Bob", "b@x.io", "2", "Bo", "lead", "2025-01-02"⟩]
      [⟨"u1", "Alice", "a@x.io", "1", "Al", "active", "2025-01-01"⟩]
      [] [] [⟨"u1", "2025-03-01", "paid", 100⟩, ⟨"u2", "2025-03-02", "paid", 999⟩]
      [⟨"u1", "2025-03-01", "paid", 100⟩] [] [] [] [] "u1" 1 20
      ⟨none, .desc⟩ ⟨none, none, none, none⟩ "" "2025-01-01" "2025-12-31"
      (by decide) (by decide) (by decide) (by decide) (by decide)).2

/-- C6: saved-view round trip.  For every `ViewState` value,
`decodeViewState (encodeViewState s) = s`: `JSON.stringify` followed by
`JSON.parse` with the typed cast reproduces the filters and sort structs
exactly. -/
theorem decodeViewState_encodeViewState (s : ViewState) :
    decodeViewState (encodeViewState s) = s := by
  unfold decodeViewState encodeViewState
  rw [show (String.mk (renderJVal (viewStateToJVal s))).data =
      renderJVal (viewStateToJVal s) from rfl]
  have hfuel : sizeJ (viewStateToJVal s) ≤ (renderJVal (viewStateToJVal s)).length + 1 := by
    have := sizeJ_le_length (viewStateToJVal s)
    omega
  have hparse : parseJVal ((renderJVal (viewStateToJVal s)).length + 1)
      (renderJVal (viewStateToJVal s) ++ []) = some (viewStateToJVal s, []) :=
    parseJVal_renderJVal _ _ _ hfuel
  rw [List.append_nil] at hparse
  rw [hparse]
  exact jToViewState_viewStateToJVal s

end Figurely
